import Mathlib

/-
Verification development for the MillOS batch source-rewriting scripts
(optimize_truckbay.py and split_ambient_details.py).

Text buffers are modelled as lists of characters.  Each Python regex used by
the scripts contains no unconstrained backtracking at the places where the
scripts apply it, so each one is embedded as a direct character-level scanner
with the same leftmost-match, greedy/lazy semantics as the Python engine.
Brace characters inside string literals are written with hexadecimal escapes.
-/

set_option maxRecDepth 100000
set_option maxHeartbeats 1000000

def strL (s : String) : List Char := s.toList

/-- First index at which the literal pattern occurs, like Python str.find
returning an index instead of -1. -/
def findLit (pat : List Char) : List Char → Option Nat
  | [] => if pat.isEmpty then some 0 else none
  | s@(_ :: rest) =>
    if pat.isPrefixOf s then some 0
    else (findLit pat rest).map (· + 1)

/-- Last index at which the literal pattern occurs, like Python str.rfind. -/
def rfindLit (pat : List Char) : List Char → Option Nat
  | [] => if pat.isEmpty then some 0 else none
  | s@(_ :: rest) =>
    match rfindLit pat rest with
    | some i => some (i + 1)
    | none => if pat.isPrefixOf s then some 0 else none

/-- Insert a fragment at a given index of the buffer. -/
def insertAt (s ins : List Char) (i : Nat) : List Char :=
  s.take i ++ ins ++ s.drop i

/-- Replace every occurrence of a literal by itself followed by an extra
fragment, scanning left to right and never rescanning the replacement; the
fuel argument dominates the length of the buffer. -/
def subAllLit (pat add : List Char) : Nat → List Char → List Char
  | 0, s => s
  | _, [] => []
  | fuel + 1, s@(c :: rest) =>
    if pat.isPrefixOf s then pat ++ add ++ subAllLit pat add fuel (s.drop pat.length)
    else c :: subAllLit pat add fuel rest

/-- The guard statement inserted by add_throttle_to_component, with the
tick-divisor literal rendered in decimal. -/
def guardText (level : Nat) : List Char :=
  strL "\n    if (!shouldRunThisFrame(" ++ strL (toString level) ++ strL ")) return;"

/-- Continuation of the useFrame pattern after the literal "useFrame((": a
greedy run of characters other than a closing parenthesis, the closing
parenthesis, then the literal arrow and opening brace.  Returns the matched
tail of the second regex group and the rest of the buffer. -/
def matchAfterUF (s : List Char) : Option (List Char × List Char) :=
  let p := s.span (fun c => c ≠ ')')
  match p.2 with
  | ')' :: r2 =>
    if (strL " => \x7b").isPrefixOf r2 then
      some (p.1 ++ ')' :: strL " => \x7b", r2.drop 5)
    else none
  | _ => none

/-- Lazy scan of the component body region: the shortest run of characters
that contains no closing brace and is followed by a full useFrame header,
with backtracking into a longer run when the header continuation fails.
Returns the lazily consumed run, the matched useFrame group and the rest. -/
def lazyScan : List Char → Option (List Char × List Char × List Char)
  | [] => none
  | c :: rest =>
    match (if (strL "useFrame((").isPrefixOf (c :: rest) then
            (matchAfterUF ((c :: rest).drop 10)).map
              (fun pr => (([] : List Char), strL "useFrame((" ++ pr.1, pr.2))
          else none) with
    | some r => some r
    | none =>
      if c = '\x7d' then none
      else (lazyScan rest).map (fun t => (c :: t.1, t.2.1, t.2.2))

/-- One attempted match of the throttling pattern at the head of the buffer:
the literal "const " and the component name, a greedy run up to the first
opening brace, the brace, then the lazy body scan.  Returns the full matched
text (both regex groups) and the buffer rest. -/
def matchThrottleAt (name : List Char) (s : List Char) : Option (List Char × List Char) :=
  if (strL "const " ++ name).isPrefixOf s then
    let r0 := s.drop (strL "const " ++ name).length
    let p := r0.span (fun c => c ≠ '\x7b')
    match p.2 with
    | '\x7b' :: r2 =>
      match lazyScan r2 with
      | some t => some ((strL "const " ++ name) ++ p.1 ++ '\x7b' :: (t.1 ++ t.2.1), t.2.2)
      | none => none
    | _ => none
  else none

/-- re.sub over the whole buffer for the throttling pattern: at each position
try the match, emit the matched text followed by the guard and continue after
the match, otherwise advance one character. -/
def subThrottle (name : List Char) (level : Nat) : Nat → List Char → List Char
  | 0, s => s
  | _, [] => []
  | fuel + 1, s@(c :: rest) =>
    match matchThrottleAt name s with
    | some (m, after) => m ++ guardText level ++ subThrottle name level fuel after
    | none => c :: subThrottle name level fuel rest

/-- add_throttle_to_component from optimize_truckbay.py. -/
def add_throttle_to_component (content : List Char) (component_name : String)
    (throttle_level : Nat) : List Char :=
  subThrottle component_name.toList throttle_level (content.length + 1) content

def particle_components : List String := ["ExhaustSmoke"]

def light_components : List String :=
  ["DOTMarkerLights", "DockStatusLight", "TruckAlignmentGuides"]

def slow_anim_components : List String :=
  ["RollUpDoor", "DockShelter", "DockLeveler", "DockPlate",
   "WheelChock", "DockForklift", "DockSpotter", "WarehouseWorkerWithPalletJack",
   "WeightScale", "YardJockey", "GuardShack", "MudflapWithChains",
   "AirHoseStation", "ScaleTicketKiosk", "StretchWrapMachine",
   "PalletJackChargingStation", "OverheadCrane", "CardboardCompactor",
   "IntercomCallBox", "TruckWashStation", "TimeClockStation"]

def medium_anim_components : List String := ["ReeferUnit"]

/-- The literal import header matched by the import-injection pattern. -/
def importLit : List Char := strL "import \x7b useFrame \x7d from '@react-three/fiber';"

/-- The extra import line appended after the matched import header. -/
def importAdd : List Char :=
  strL "\nimport \x7b shouldRunThisFrame, incrementGlobalFrame \x7d from '../utils/frameThrottle';"

/-- add_frame_throttling from optimize_truckbay.py: import injection followed
by the four per-class throttling loops with their literal divisors. -/
def add_frame_throttling (content : List Char) : List Char :=
  let c1 := subAllLit importLit importAdd (content.length + 1) content
  let c2 := particle_components.foldl (fun acc n => add_throttle_to_component acc n 2) c1
  let c3 := light_components.foldl (fun acc n => add_throttle_to_component acc n 4) c2
  let c4 := slow_anim_components.foldl (fun acc n => add_throttle_to_component acc n 3) c3
  medium_anim_components.foldl (fun acc n => add_throttle_to_component acc n 2) c4

def static_components : List String :=
  ["TrafficCone", "SpeedBump", "ConcreteBollard", "FifthWheelCoupling",
   "GladHands", "ICCReflectiveTape", "SlidingTandemAxles", "ManifestHolder",
   "FuelTank", "AirTank", "LandingGear", "DEFTank", "CBAntennaComponent",
   "SunVisor", "TireInspectionArea", "FuelIsland", "NoIdlingSign",
   "PalletStaging", "HeadlightBeam", "LicensePlate", "GrainCoLogo",
   "FlourExpressLogo", "TPMSSensor", "TrailerLockRods", "TrailerSkirts",
   "DriverRestroom", "TrailerDropYard", "MaintenanceBay", "DockBumperWithWear",
   "DockFloorMarkings", "SafetyMirror", "FireExtinguisherStation", "HazmatPlacard",
   "DriverBreakRoom", "EmployeeParking", "PropaneTankCage", "DumpsterArea"]

/-- One attempted match, at the head of the buffer, of the check pattern that
detects an already memoized definition: the literal header up to the generic
argument, a greedy run up to the closing angle bracket, then the literal
memoization call opener. -/
def memoCheckAt (name s : List Char) : Bool :=
  if (strL "const " ++ name ++ strL ": React.FC<").isPrefixOf s then
    let r0 := s.drop (strL "const " ++ name ++ strL ": React.FC<").length
    let p := r0.span (fun c => c ≠ '>')
    match p.2 with
    | '>' :: r2 => (strL " = React.memo(").isPrefixOf r2
    | _ => false
  else false

/-- True when the predicate holds at some suffix of the buffer, the Boolean
counterpart of re.search. -/
def anySuffix (f : List Char → Bool) : List Char → Bool
  | [] => f []
  | s@(_ :: rest) => f s || anySuffix f rest

/-- One attempted match, at the head of the buffer, of the memoization
pattern: the literal header up to the generic argument, a greedy run up to
the closing angle bracket, then the space-equals-space literal.  Returns the
matched group and the buffer rest. -/
def memoPatAt (name s : List Char) : Option (List Char × List Char) :=
  if (strL "const " ++ name ++ strL ": React.FC<").isPrefixOf s then
    let r0 := s.drop (strL "const " ++ name ++ strL ": React.FC<").length
    let p := r0.span (fun c => c ≠ '>')
    match p.2 with
    | '>' :: r2 =>
      if (strL " = ").isPrefixOf r2 then
        some ((strL "const " ++ name ++ strL ": React.FC<") ++ p.1 ++ '>' :: strL " = ",
              r2.drop 3)
      else none
    | _ => none
  else none

/-- re.sub over the whole buffer for the memoization pattern, inserting the
memoization call opener after each matched group. -/
def subMemo (name : List Char) : Nat → List Char → List Char
  | 0, s => s
  | _, [] => []
  | fuel + 1, s@(c :: rest) =>
    match memoPatAt name s with
    | some (m, after) => m ++ strL "React.memo(" ++ subMemo name fuel after
    | none => c :: subMemo name fuel rest

def isUpperAZ (c : Char) : Bool := 65 ≤ c.toNat && c.toNat ≤ 90

/-- One attempted match, at the head of the buffer, of the next-definition
pattern: a newline followed either by the literal const keyword, a space and
an ASCII capital letter, or by the literal top-level export header. -/
def nextCompAt : List Char → Bool
  | '\n' :: r =>
    ((strL "const ").isPrefixOf r &&
      (match r.drop 6 with
       | c :: _ => isUpperAZ c
       | [] => false))
    || (strL "export const TruckBay").isPrefixOf r
  | _ => false

/-- Index of the first suffix satisfying the predicate, the index counterpart
of re.search giving the match start. -/
def findIdx (f : List Char → Bool) : List Char → Option Nat
  | [] => if f [] then some 0 else none
  | s@(_ :: rest) => if f s then some 0 else (findIdx f rest).map (· + 1)

/-- The per-component body of the loop of memoize_static_components: skip the
component when the check pattern occurs anywhere, otherwise apply the
memoization substitution, then look up the component header by literal
search, find the next definition header fifty characters past it, and insert
one closing parenthesis two characters after the last closing-brace-semicolon
pair of that section. -/
def memoizeOne (content : List Char) (component : String) : List Char :=
  let name := component.toList
  if anySuffix (memoCheckAt name) content then content
  else
    let content2 := subMemo name (content.length + 1) content
    match findLit (strL "const " ++ name ++ strL ":") content2 with
    | none => content2
    | some comp_start =>
      match findIdx nextCompAt (content2.drop (comp_start + 50)) with
      | none => content2
      | some idx =>
        let comp_end_search := comp_start + 50 + idx
        let sect := (content2.take comp_end_search).drop comp_start
        match rfindLit (strL "\x7d;") sect with
        | none => content2
        | some last_close => insertAt content2 (strL ")") (comp_start + last_close + 2)

/-- memoize_static_components from optimize_truckbay.py. -/
def memoize_static_components (content : List Char) : List Char :=
  static_components.foldl memoizeOne content

/-- Modelled from the spec, section 4.1: the depth scan of BoundaryLocator.
Starting just after the opening body delimiter with the given nesting depth,
braces and parentheses raise and lower the depth, quoted spans (single quote,
double quote, backquote) are opaque, and the scan answers the offset of the
delimiter at which the depth first returns to zero, or nothing when the
nesting never closes before end of file. -/
def specScan : List Char → Nat → Option Char → Option Nat
  | [], _, _ => none
  | c :: rest, depth, some q =>
    (specScan rest depth (if c = q then none else some q)).map (· + 1)
  | c :: rest, depth, none =>
    if c = '\'' || c = '"' || c = Char.ofNat 96 then
      (specScan rest depth (some c)).map (· + 1)
    else if c = '\x7b' || c = '(' then
      (specScan rest (depth + 1) none).map (· + 1)
    else if c = '\x7d' || c = ')' then
      if depth = 1 then some 0
      else (specScan rest (depth - 1) none).map (· + 1)
    else
      (specScan rest depth none).map (· + 1)

/-- Modelled from the spec, section 4.1: locate answers the header start, the
body start (the opening body delimiter) and the body end (the delimiter at
which the depth first returns to zero), failing when the name has no header
or when the nesting never closes. -/
def locate_spec (src name : List Char) : Option (Nat × Nat × Nat) :=
  match findLit (strL "const " ++ name) src with
  | none => none
  | some headerStart =>
    match findLit (strL "\x7b") (src.drop headerStart) with
    | none => none
    | some rel =>
      let bodyStart := headerStart + rel
      match specScan (src.drop (bodyStart + 1)) 1 none with
      | none => none
      | some off => some (headerStart, bodyStart, bodyStart + 1 + off)

/-- Modelled from the spec, section 4.3: wrap inserts the memoization call
opener immediately before the right-hand-side expression of the definition
and exactly one closing token at the body end answered by the locator. -/
def wrap_spec (src : List Char) (name : String) : Option (List Char) :=
  match locate_spec src name.toList with
  | none => none
  | some (h, _, e) =>
    match findLit (strL " = ") (src.drop h) with
    | none => none
    | some r =>
      let a := h + r + 3
      some (src.take a ++ strL "React.memo(" ++ (src.take (e + 1)).drop a ++
            strL ")" ++ src.drop (e + 1))

/-- End-of-lazy-run test for the first extraction pattern: the consumed
newline, then a lookahead requiring another newline followed by an optional
export keyword and one of the three next-definition alternatives. -/
def endCheck1 : List Char → Bool
  | '\n' :: '\n' :: r =>
    ((strL "export ").isPrefixOf r &&
      ((strL "const").isPrefixOf (r.drop 7) || (strL "//").isPrefixOf (r.drop 7) ||
        (strL "export default").isPrefixOf (r.drop 7)))
    || (strL "const").isPrefixOf r || (strL "//").isPrefixOf r ||
       (strL "export default").isPrefixOf r
  | _ => false

/-- End-of-lazy-run test for the second extraction pattern: the consumed
newline, then a lookahead requiring the closing brace, semicolon and
newline. -/
def endCheck2 : List Char → Bool
  | '\n' :: r => (strL "\x7d;\n").isPrefixOf r
  | _ => false

/-- The lazy run of the definition group: the shortest run of arbitrary
characters after which the end test fires, dotall semantics. -/
def g2lazy (endCheck : List Char → Bool) : List Char → Option (List Char)
  | [] => none
  | s@(c :: rest) =>
    if endCheck s then some []
    else (g2lazy endCheck rest).map (c :: ·)

/-- One attempted match, at the head of the buffer, of the definition group
of the extraction patterns: an optional export keyword, the literal header,
then the lazy run.  Returns the captured group. -/
def g2At (endCheck : List Char → Bool) (name u : List Char) : Option (List Char) :=
  match (if (strL "export ").isPrefixOf u &&
            (strL "const " ++ name ++ strL ":").isPrefixOf (u.drop 7) then
          (g2lazy endCheck (u.drop (7 + (strL "const " ++ name ++ strL ":").length))).map
            (fun z => strL "export " ++ (strL "const " ++ name ++ strL ":") ++ z)
        else none) with
  | some r => some r
  | none =>
    if (strL "const " ++ name ++ strL ":").isPrefixOf u then
      (g2lazy endCheck (u.drop (strL "const " ++ name ++ strL ":").length)).map
        (fun z => (strL "const " ++ name ++ strL ":") ++ z)
    else none

/-- Ascending list of the indices at which the literal pattern occurs. -/
def occList (pat : List Char) : List Char → List Nat
  | [] => []
  | s@(_ :: rest) =>
    if pat.isPrefixOf s then 0 :: (occList pat rest).map (· + 1)
    else (occList pat rest).map (· + 1)

/-- First defined value of the function over the list, used to realize the
backtracking order of the regex engine over candidate split points. -/
def firstSome {α β : Type} (f : α → Option β) : List α → Option β
  | [] => none
  | a :: rest =>
    match f a with
    | some b => some b
    | none => firstSome f rest

/-- One attempted match, at the head of the buffer, of the optional comment
group followed by the definition group: the comment opener, a greedy dotall
run up to the component name tried at the latest occurrence first, a lazy
dotall run up to a newline tried at the earliest newline first, then the
definition group.  Returns the captured comment and definition groups. -/
def commentG2At (endCheck : List Char → Bool) (name u : List Char) :
    Option (List Char × List Char) :=
  if (strL "//").isPrefixOf u then
    firstSome (fun j =>
      firstSome (fun k =>
        let commentLen := 2 + j + name.length + k + 1
        match g2At endCheck name (u.drop commentLen) with
        | some code => some (u.take commentLen, code)
        | none => none)
        (occList (strL "\n") ((u.drop 2).drop (j + name.length))))
      ((occList name (u.drop 2)).reverse)
  else none

/-- re.search for an extraction pattern: at each position, try the variant
with the comment group and then the variant without it, answering the first
success scanning left to right. -/
def searchPat (endCheck : List Char → Bool) (name : List Char) :
    List Char → Option (List Char × List Char)
  | [] => none
  | s@(_ :: rest) =>
    match commentG2At endCheck name s with
    | some r => some r
    | none =>
      match g2At endCheck name s with
      | some code => some ([], code)
      | none => searchPat endCheck name rest

/-- extract_component from split_ambient_details.py: the first pattern, then
the second, each appending the fixed definition terminator to the captured
groups. -/
def extract_component (src : List Char) (component_name : String) : Option (List Char) :=
  match searchPat endCheck1 component_name.toList src with
  | some pr => some (pr.1 ++ pr.2 ++ strL "\n\x7d;\n")
  | none =>
    match searchPat endCheck2 component_name.toList src with
    | some pr => some (pr.1 ++ pr.2 ++ strL "\n\x7d;\n")
    | none => none

/-- One repetition of the import-block pattern: the literal import keyword, a
lazy dotall run to the first semicolon, a lazy dotall run to the next
newline.  Answers the number of characters consumed. -/
def importUnit (u : List Char) : Option Nat :=
  if (strL "import ").isPrefixOf u then
    match findLit (strL ";") (u.drop 7) with
    | none => none
    | some a =>
      match findLit (strL "\n") (u.drop (7 + a + 1)) with
      | none => none
      | some b => some (7 + a + 1 + b + 1)
  else none

/-- Greedy repetition of the import-block pattern: total number of characters
consumed by as many repetitions as match. -/
def importRun : Nat → List Char → Nat
  | 0, _ => 0
  | fuel + 1, u =>
    match importUnit u with
    | some n => n + importRun fuel (u.drop n)
    | none => 0

/-- The suffix at the first index satisfying the predicate. -/
def findSuffix (f : List Char → Bool) : List Char → Option (List Char)
  | [] => if f [] then some [] else none
  | s@(_ :: rest) => if f s then some s else findSuffix f rest

/-- The import block of split_ambient_details.py: the whole text matched by
the leftmost greedy repetition of the import-block pattern, empty when there
is no match. -/
def original_imports (src : List Char) : List Char :=
  match findSuffix (fun t => (importUnit t).isSome) src with
  | some t => t.take (importRun (t.length + 1) t)
  | none => []

/-- Result of one category build: the assembled file content, the number of
successfully extracted components, and the names reported by warnings. -/
structure CategoryResult where
  content : List Char
  foundCount : Nat
  warnings : List String
deriving DecidableEq

/-- The per-component body of the loop of create_category_file: append the
extracted text and a newline and count it, or record a warning for the
missing name. -/
def catStep (src : List Char) (acc : List Char × Nat × List String)
    (component_name : String) : List Char × Nat × List String :=
  match extract_component src component_name with
  | some code => (acc.1 ++ code ++ strL "\n", acc.2.1 + 1, acc.2.2)
  | none => (acc.1, acc.2.1, acc.2.2 ++ [component_name])

/-- create_category_file from split_ambient_details.py: the import block, a
blank-separated description comment, then the loop over the listed component
names. -/
def create_category_file (src : List Char) (components : List String)
    (description : String) : CategoryResult :=
  let base := (original_imports src ++ strL "\n") ++
              (strL "// " ++ description.toList ++ strL "\n\n")
  let r := components.foldl (catStep src) (base, 0, [])
  ⟨r.1, r.2.1, r.2.2⟩

/-- The file-written outcome of create_category_file: the file is persisted
exactly when the extracted count is positive. -/
def category_written (r : CategoryResult) : Bool := decide (0 < r.foundCount)

/-- The throttle classes of the configuration surface. -/
inductive ThrottleClass where
  | particle
  | light
  | slowAnimation
  | mediumAnimation
  | smooth
deriving DecidableEq, Fintype

/-- The throttle-class table of the configuration surface: each class mapped
to its tick divisor. -/
def throttleTable : ThrottleClass → Nat
  | .particle => 2
  | .light => 4
  | .slowAnimation => 3
  | .mediumAnimation => 2
  | .smooth => 1

/-- The component list that add_frame_throttling assigns to each throttle
class; the smooth class has no loop in the code. -/
def classComponents : ThrottleClass → List String
  | .particle => particle_components
  | .light => light_components
  | .slowAnimation => slow_anim_components
  | .mediumAnimation => medium_anim_components
  | .smooth => []

/-- The literal divisor passed to add_throttle_to_component at each call site
of add_frame_throttling; the smooth class has no call site. -/
def classCallDivisor : ThrottleClass → Option Nat
  | .particle => some 2
  | .light => some 4
  | .slowAnimation => some 3
  | .mediumAnimation => some 2
  | .smooth => none

/- Concrete fixtures for the claims. -/

def c1a : List Char := strL "const TrafficCone: React.FC<P> = "
def c1b : List Char := strL "(p) => \x7b\n  return x;\n\x7d;\nconst style = \x7b a: 1 \x7d;"
def c1c : List Char := strL "\nconst Next: React.FC<P> = (p) => null;\n"
def c1src : List Char := c1a ++ c1b ++ c1c
def c1out : List Char := c1a ++ strL "React.memo(" ++ c1b ++ strL ")" ++ c1c
def c1good : List Char :=
  c1a ++ strL "React.memo(" ++ strL "(p) => \x7b\n  return x;\n\x7d" ++ strL ")" ++
  strL ";\nconst style = \x7b a: 1 \x7d;" ++ c1c

def c2pre : List Char := strL "const ExhaustSmoke: React.FC<P> = (p) => \x7b\n  useFrame((s) => \x7b"
def c2post : List Char := strL "\n    a();\n  \x7d);\n  return null;\n\x7d;\n"
def c2src : List Char := c2pre ++ c2post
def c2once : List Char := c2pre ++ guardText 2 ++ c2post
def c2twice : List Char := c2pre ++ guardText 2 ++ guardText 2 ++ c2post

def c3a : List Char := strL "const SpeedBump: React.FC<Q> = "
def c3b : List Char := strL "(p) => \x7b\n  return y;\n\x7d;"
def c3c : List Char := strL "\nconst TrafficCone: React.FC<P> = "
def c3body : List Char := strL "\n  return (\n    x;\n"
def c3d : List Char := strL "(p) => \x7b" ++ c3body
def c3src : List Char := c3a ++ c3b ++ c3c ++ c3d
def c3out : List Char :=
  c3a ++ strL "React.memo(" ++ c3b ++ strL ")" ++ c3c ++ strL "React.memo(" ++ c3d

def c4a : List Char := strL "const TrafficCone: Props = (p) => \x7b\n  return x;\n\x7d;"
def c4b : List Char := strL "\nconst Next: React.FC<P> = y;\n"
def c4src : List Char := c4a ++ c4b
def c4once : List Char := c4a ++ strL ")" ++ c4b
def c4twice : List Char := c4a ++ strL "))" ++ c4b

def c5e1 : List Char := strL "const ExhaustSmoke: React.FC<P> = (p) => \x7b\n  useFrame((s) => \x7b"
def c5e2 : List Char := strL "\n    a();\n  \x7d);\n\x7d;\n"
def c5d1 : List Char := strL "const DOTMarkerLights: React.FC<P> = (p) => \x7b\n  useFrame((s) => \x7b"
def c5d2 : List Char := strL "\n    b();\n  \x7d);\n\x7d;\n"
def c5r : List Char :=
  strL "const RealisticTruck: React.FC<P> = (p) => \x7b\n  useFrame((s) => \x7b\n    c();\n  \x7d);\n\x7d;\n"
def c5src : List Char := c5e1 ++ c5e2 ++ c5d1 ++ c5d2 ++ c5r
def c5out : List Char := c5e1 ++ guardText 2 ++ c5e2 ++ c5d1 ++ guardText 4 ++ c5d2 ++ c5r

def c6a : List Char := strL "const Cobweb: React.FC<P> = (p) => \x7b\n  return 1;\n\x7d;"
def c6b : List Char := strL "\n\nconst RustStain: React.FC<P> = (p) => null;\n"
def c6src : List Char := c6a ++ c6b
def c6ext : List Char := c6a ++ strL "\n\x7d;\n"

def c7src : List Char :=
  strL "import React from 'react';\nconst SafetySign: React.FC<P> = (p) => \x7b\n  return s;\n\x7d;\n\nconst Other: React.FC<P> = (p) => null;\n"
def c7content : List Char :=
  strL "import React from 'react';\n" ++ strL "\n" ++
  strL "// Safety equipment and signage\n\n" ++
  (strL "const SafetySign: React.FC<P> = (p) => \x7b\n  return s;\n\x7d;" ++ strL "\n\x7d;\n") ++
  strL "\n"

def c9src : List Char :=
  strL "const Widget: React.FC<P> = (p) => \x7b useFrame((s) => \x7b a(); \x7d); \x7d;\n"

def c10src : List Char :=
  strL "const Mouse: React.FC<P> = (p) => \x7b\n  go();\n\nconst Pigeon: React.FC<P> = (p) => null;\n"
def c10out : List Char := strL "const Mouse: React.FC<P> = (p) => \x7b\n  go();" ++ strL "\n\x7d;\n"

/- Helper lemmas. -/

theorem findLit_cons_none {pat : List Char} {c : Char} {rest : List Char}
    (h : findLit pat (c :: rest) = none) :
    pat.isPrefixOf (c :: rest) = false ∧ findLit pat rest = none := by
  cases hp : pat.isPrefixOf (c :: rest) with
  | true => simp [findLit, hp] at h
  | false =>
    simp only [findLit, hp, Bool.false_eq_true, if_false] at h
    exact ⟨rfl, Option.map_eq_none'.mp h⟩

theorem subThrottle_id (name : List Char) (lvl : Nat) :
    ∀ (fuel : Nat) (s : List Char),
      findLit (strL "const " ++ name) s = none →
      subThrottle name lvl fuel s = s := by
  intro fuel
  induction fuel with
  | zero => intro s _; cases s <;> rfl
  | succ f ih =>
    intro s h
    cases s with
    | nil => rfl
    | cons c rest =>
      obtain ⟨hp, hr⟩ := findLit_cons_none h
      have hm : matchThrottleAt name (c :: rest) = none := by
        simp [matchThrottleAt, hp]
      simp only [subThrottle, hm]
      exact congrArg (c :: ·) (ih rest hr)

theorem any_eq_countP_pos {α : Type} (p : α → Bool) (l : List α) :
    l.any p = decide (0 < l.countP p) := by
  induction l with
  | nil => simp
  | cons a t ih =>
    cases hp : p a with
    | false => simp [List.countP_cons, hp, ih]
    | true =>
      simp only [List.any_cons, hp, Bool.true_or, List.countP_cons, if_true]
      exact (decide_eq_true (Nat.succ_pos _)).symm

theorem catStep_foldl (src : List Char) (comps : List String) :
    ∀ (base : List Char) (cnt : Nat) (ws : List String),
      comps.foldl (catStep src) (base, cnt, ws) =
        (base ++ (comps.filterMap
            (fun n => (extract_component src n).map (fun t => t ++ strL "\n"))).flatten,
         cnt + comps.countP (fun n => (extract_component src n).isSome),
         ws ++ comps.filter (fun n => (extract_component src n).isNone)) := by
  induction comps with
  | nil => intro base cnt ws; simp
  | cons n rest ih =>
    intro base cnt ws
    simp only [List.foldl_cons, List.filterMap_cons, List.countP_cons, List.filter_cons]
    cases h : extract_component src n with
    | none =>
      have e : catStep src (base, cnt, ws) n = (base, cnt, ws ++ [n]) := by
        simp [catStep, h]
      rw [e, ih]
      simp [h, List.append_assoc]
    | some t =>
      have e : catStep src (base, cnt, ws) n = (base ++ t ++ strL "\n", cnt + 1, ws) := by
        simp [catStep, h]
      rw [e, ih]
      simp [h, List.append_assoc, Prod.ext_iff]
      omega

theorem ccf_content (src : List Char) (comps : List String) (desc : String) :
    (create_category_file src comps desc).content =
      original_imports src ++ strL "\n" ++ strL "// " ++ desc.toList ++ strL "\n\n" ++
      (comps.filterMap
        (fun n => (extract_component src n).map (fun t => t ++ strL "\n"))).flatten := by
  show (comps.foldl (catStep src)
      ((original_imports src ++ strL "\n") ++ (strL "// " ++ desc.toList ++ strL "\n\n"),
        0, ([] : List String))).1 = _
  rw [catStep_foldl]
  simp [List.append_assoc]

theorem ccf_foundCount (src : List Char) (comps : List String) (desc : String) :
    (create_category_file src comps desc).foundCount
      = comps.countP (fun n => (extract_component src n).isSome) := by
  show (comps.foldl (catStep src)
      ((original_imports src ++ strL "\n") ++ (strL "// " ++ desc.toList ++ strL "\n\n"),
        0, ([] : List String))).2.1 = _
  rw [catStep_foldl]
  simp

theorem ccf_warnings (src : List Char) (comps : List String) (desc : String) :
    (create_category_file src comps desc).warnings
      = comps.filter (fun n => (extract_component src n).isNone) := by
  show (comps.foldl (catStep src)
      ((original_imports src ++ strL "\n") ++ (strL "// " ++ desc.toList ++ strL "\n\n"),
        0, ([] : List String))).2.2 = _
  rw [catStep_foldl]
  simp

theorem add_frame_throttling_eq_classes (content : List Char) :
    add_frame_throttling content =
      (classComponents ThrottleClass.mediumAnimation).foldl
        (fun acc n => add_throttle_to_component acc n 2)
        ((classComponents ThrottleClass.slowAnimation).foldl
          (fun acc n => add_throttle_to_component acc n 3)
          ((classComponents ThrottleClass.light).foldl
            (fun acc n => add_throttle_to_component acc n 4)
            ((classComponents ThrottleClass.particle).foldl
              (fun acc n => add_throttle_to_component acc n 2)
              (subAllLit importLit importAdd (content.length + 1) content)))) := rfl

/- Claim theorems. -/

/-- Claim C1: the wrap operation of memoize_static_components is claimed to
insert its single closing token at the body end determined by depth-aware
boundary scanning and never by scanning for the last unrelated closing
marker before the next definition header.  On this buffer the code inserts
the closing parenthesis after the closing marker of the unrelated style
object, while the depth-aware wrap modelled from the spec closes the call at
the component's own body end; the two outputs differ. -/
theorem c1_wrap_inserts_at_last_closing_marker :
    memoize_static_components c1src = c1out ∧
    wrap_spec c1src "TrafficCone" = some c1good ∧
    c1out ≠ c1good :=
  ⟨by decide, by decide, by decide⟩

/-- Claim C2: applying add_throttle_to_component twice with the same
arguments is claimed to be byte-identical to applying it once.  On this
buffer the second application inserts a second copy of the guard as the new
first statement of the callback body, so the outputs differ. -/
theorem c2_injectGuard_not_idempotent :
    add_throttle_to_component c2src "ExhaustSmoke" 2 = c2once ∧
    add_throttle_to_component c2once "ExhaustSmoke" 2 = c2twice ∧
    c2twice ≠ c2once :=
  ⟨by decide, by decide, by decide⟩

/-- Claim C3: on a component whose body nesting never closes the wrap pass is
claimed to leave that component's text unmutated while other components are
still processed.  On this buffer the locator modelled from the spec reports
the boundary mismatch, yet the code inserts the memoization call opener into
the broken component without any closing token, a partial edit; the other
component is wrapped. -/
theorem c3_boundary_mismatch_leaves_partial_edit :
    memoize_static_components c3src = c3out ∧
    locate_spec c3src (strL "TrafficCone") = none ∧
    (findLit (strL "const TrafficCone: React.FC<P> = React.memo(") c3out).isSome = true ∧
    c3out ≠ c3src :=
  ⟨by decide, by decide, by decide, by decide⟩

/-- Claim C4: applying the memoization pass twice is claimed to be
byte-identical to applying it once.  On this buffer, whose definition header
does not match the recognized header form, each application inserts one more
stray closing parenthesis after the last closing marker even though no
memoization call was opened, so the outputs differ. -/
theorem c4_wrap_not_idempotent :
    memoize_static_components c4src = c4once ∧
    memoize_static_components c4once = c4twice ∧
    c4twice ≠ c4once :=
  ⟨by decide, by decide, by decide⟩

/-- Claim C5: for every throttle class the divisor literal passed at the call
sites of add_frame_throttling equals the configured value of the
throttle-class table, the smooth class having no call site at all; and on a
buffer holding one particle, one light and one smooth component the pass
injects guards with the literals two and four and leaves the smooth
component untouched. -/
theorem c5_guard_divisor_equals_table :
    (∀ c : ThrottleClass, classCallDivisor c =
      if throttleTable c = 1 then none else some (throttleTable c)) ∧
    add_frame_throttling c5src = c5out :=
  ⟨by decide, by decide⟩

/-- Claim C6: extract_component is claimed to answer the exact substring of
the buffer from the header start through the trailing definition terminator,
so that re-insertion at the same position reproduces the buffer.  On this
buffer the extracted text carries an extra synthesized terminator after the
one copied from the source, differs from the exact substring, and
re-insertion does not reproduce the buffer. -/
theorem c6_extract_not_exact_substring :
    extract_component c6src "Cobweb" = some c6ext ∧
    c6ext ≠ c6src.take (c6a.length + 1) ∧
    c6ext ++ c6src.drop (c6a.length + 1) ≠ c6src :=
  ⟨by decide, by decide, by decide⟩

/-- Claim C7: for every category group the file is written exactly when at
least one listed name extracts, absent names are collected as warnings and
counted, and the loop never aborts; concretely, of the two listed safety
components only the one present in the source is extracted, the other is
warned about, and a group with no match writes nothing. -/
theorem c7_written_iff_found_warn_missing :
    (∀ (src : List Char) (comps : List String) (desc : String),
      category_written (create_category_file src comps desc)
          = comps.any (fun n => (extract_component src n).isSome) ∧
      (create_category_file src comps desc).warnings
          = comps.filter (fun n => (extract_component src n).isNone) ∧
      (create_category_file src comps desc).foundCount
          = comps.countP (fun n => (extract_component src n).isSome)) ∧
    create_category_file c7src ["SafetySign", "EyeWashStation"] "Safety equipment and signage"
        = ⟨c7content, 1, ["EyeWashStation"]⟩ ∧
    category_written (create_category_file c7src ["Pigeon"] "none") = false := by
  refine ⟨fun src comps desc => ⟨?_, ccf_warnings src comps desc, ccf_foundCount src comps desc⟩,
    by decide, by decide⟩
  show decide (0 < (create_category_file src comps desc).foundCount) = _
  rw [ccf_foundCount]
  exact (any_eq_countP_pos _ _).symm

/-- Claim C8: for every category group the produced content equals the import
block, the description comment, then the extracted component texts each
followed by a newline, concatenated in the order of the listed names with
absent names skipped; concretely the safety group content is assembled in
exactly that form. -/
theorem c8_content_is_imports_comment_components :
    (∀ (src : List Char) (comps : List String) (desc : String),
      (create_category_file src comps desc).content =
        original_imports src ++ strL "\n" ++ strL "// " ++ desc.toList ++ strL "\n\n" ++
        (comps.filterMap
          (fun n => (extract_component src n).map (fun t => t ++ strL "\n"))).flatten) ∧
    (create_category_file c7src ["SafetySign", "EyeWashStation"]
        "Safety equipment and signage").content = c7content :=
  ⟨ccf_content, by decide⟩

/-- Claim C9 counterexample: invoked directly with a name having no
definition header in the buffer, add_throttle_to_component does not fail; it
succeeds and answers the buffer unchanged, a silent no-op. -/
theorem c9_counterexample_silent_noop :
    findLit (strL "const GhostComponent") c9src = none ∧
    add_throttle_to_component c9src "GhostComponent" 4 = c9src :=
  ⟨by decide, by decide⟩

/-- Claim C9 as amended: when the buffer holds no header literal for the
requested name, add_throttle_to_component succeeds and answers the buffer
unchanged for every throttle level; the operation has no failure outcome. -/
theorem c9_amended_absent_name_is_noop (content : List Char) (nm : String) (lvl : Nat)
    (h : findLit (strL "const " ++ nm.toList) content = none) :
    add_throttle_to_component content nm lvl = content :=
  subThrottle_id nm.toList lvl (content.length + 1) content h

theorem c9_amended_witness :
    findLit (strL "const " ++ String.toList "GhostComponent") c9src = none ∧
    add_throttle_to_component c9src "GhostComponent" 7 = c9src :=
  ⟨by decide, c9_amended_absent_name_is_noop c9src "GhostComponent" 7 (by decide)⟩

/-- Claim C10: whenever extract_component succeeds, the answered text is the
captured comment group and definition group of whichever extraction pattern
matched, with the fixed terminator appended unconditionally — the terminator
is synthesized by the extractor, not copied from the source. -/
theorem c10_terminator_is_synthesized (src : List Char) (nm : String) (t : List Char)
    (h : extract_component src nm = some t) :
    ∃ pr : List Char × List Char,
      (searchPat endCheck1 nm.toList src = some pr ∨
        searchPat endCheck2 nm.toList src = some pr) ∧
      t = pr.1 ++ pr.2 ++ strL "\n\x7d;\n" := by
  unfold extract_component at h
  cases h1 : searchPat endCheck1 nm.toList src with
  | some pr =>
    rw [h1] at h
    simp only [Option.some.injEq] at h
    exact ⟨pr, Or.inl rfl, h.symm⟩
  | none =>
    rw [h1] at h
    cases h2 : searchPat endCheck2 nm.toList src with
    | some pr =>
      rw [h2] at h
      simp only [Option.some.injEq] at h
      exact ⟨pr, Or.inr rfl, h.symm⟩
    | none =>
      rw [h2] at h
      cases h

theorem c10_witness :
    extract_component c10src "Mouse" = some c10out ∧
    ∃ pr : List Char × List Char,
      (searchPat endCheck1 (String.toList "Mouse") c10src = some pr ∨
        searchPat endCheck2 (String.toList "Mouse") c10src = some pr) ∧
      c10out = pr.1 ++ pr.2 ++ strL "\n\x7d;\n" :=
  ⟨by decide, c10_terminator_is_synthesized c10src "Mouse" c10out (by decide)⟩
